import Mathlib

/-!
Verification development for the session lifecycle of the sentinel-dvpnx
node daemon: a shallow embedding of the session store record model, the
store operations, the admission handler and the four session workers
(usage sync with database, usage sync with blockchain, usage validate,
session validate), together with theorems about their behaviour.

Conventions of the embedding:
- byte counters are stored by the daemon as decimal strings encoding
  arbitrary-precision integers (cosmossdk math.Int); the encoding is a
  bijection, so counters are embedded directly as Int;
- durations are int64 nanoseconds, far from overflow in practice, embedded
  as Int;
- the database and the VPN backend are modelled as non-faulty: the only
  failure the embedding distinguishes is the absent-record outcome of the
  store operations, which is exactly what the claims are about;
- addresses, peer identifiers and service types are opaque strings.
-/

namespace DvpnX

/-- Status of a ledger session (hub v1.Status). Only equality with
StatusActive is ever tested by the daemon. -/
inductive Status where
  | unspecified
  | active
  | inactivePending
  | inactive
deriving DecidableEq, Repr

/-- A session as reported by the ledger gateway (hub session types), with
the fields the daemon reads: identifier, addresses, status, recorded usage
and the quota ceilings. -/
structure LedgerSession where
  id : Nat
  accAddress : String
  nodeAddress : String
  status : Status
  downloadBytes : Int
  uploadBytes : Int
  maxBytes : Int
  maxDuration : Int
deriving DecidableEq, Repr

/-- The ledger gateway query Session(id): first session with a matching
identifier, or none when the ledger reports no such session. -/
def ledgerGetSession (L : List LedgerSession) (id : Nat) : Option LedgerSession :=
  L.find? (fun s => s.id == id)

/-- The session store record of the current (dvpnx) generation
(database/models, rx_bytes and tx_bytes naming, peer_id and peer_request
columns), as built by the admission handler and read by the workers. -/
structure Record where
  id : Nat
  accAddr : String
  nodeAddr : String
  peerId : String
  peerRequest : String
  serviceType : String
  rxBytes : Int
  txBytes : Int
  duration : Int
  maxBytes : Int
  maxDuration : Int
  createdAt : Int
  updatedAt : Int
deriving DecidableEq, Repr

section SessionValidateWorker

/-!
The session-validate (reconciler) worker, from workers/session.go of the
dvpnx generation (src/unnamed/part_015, NewSessionValidateWorker): for each
record with this node address it queries the ledger, marks the peer for
removal when the session is missing or not active, overrides the mark to
false when the record service type differs from the currently active
service type, and deletes the record from the store exactly when the
ledger reports no session.
-/

/-- Decision of one reconciler iteration whether to invoke
RemovePeerIfExists for the record peer: translated statement by statement
from the three conditionals of NewSessionValidateWorker. -/
def sessionValidateRemovePeer (L : List LedgerSession) (curType : String)
    (r : Record) : Bool :=
  let session := ledgerGetSession L r.id
  -- Remove peer if the session is missing on the blockchain.
  let removePeer := if session.isNone then true else false
  -- Remove peer if the session status is not active.
  let removePeer :=
    match session with
    | some s => if !(s.status == Status.active) then true else removePeer
    | none => removePeer
  -- Ensure that only sessions of the current service type are validated.
  if r.serviceType != curType then false else removePeer

/-- Decision of one reconciler iteration whether to delete the record from
the store: exactly when the ledger reports no session for the record id. -/
def sessionValidateDeleteRecord (L : List LedgerSession) (r : Record) : Bool :=
  (ledgerGetSession L r.id).isNone

/-- SessionFindOneAndDelete keyed on the record id removes the first store
row whose id matches. -/
def deleteFirstById : List Record → Nat → List Record
  | [], _ => []
  | r :: rest, n => if r.id == n then rest else r :: deleteFirstById rest n

/-- One tick of the session-validate worker: iterate over the records with
this node address, apply the record deletions to the store and accumulate
the peer identifiers passed to RemovePeerIfExists. -/
def sessionValidateTick (L : List LedgerSession) (curType nodeAddr : String)
    (store : List Record) : List Record × List String :=
  (store.filter (fun r => r.nodeAddr == nodeAddr)).foldl
    (fun acc r =>
      (if sessionValidateDeleteRecord L r then deleteFirstById acc.1 r.id else acc.1,
       if sessionValidateRemovePeer L curType r then acc.2 ++ [r.peerId] else acc.2))
    (store, [])

/-- Store component of the reconciler tick, as a fold of the per-record
deletions over the processed records. -/
def recordDeleteFold (L : List LedgerSession) : List Record → List Record → List Record
  | [], st => st
  | r :: l, st =>
      recordDeleteFold L l
        (if sessionValidateDeleteRecord L r then deleteFirstById st r.id else st)

/-- Number of store rows carrying a given record id. -/
def recordCountId (store : List Record) (n : Nat) : Nat :=
  (store.filter (fun r => r.id == n)).length

end SessionValidateWorker

section SessionUsageValidateWorker

/-!
The session-usage-validate (quota enforcer) worker, from workers/session.go
of the dvpnx generation (src/unnamed/part_015, NewSessionUsageValidateWorker):
it loads the records matching this node address and the currently active
service type, and for each record marks the peer for removal when a nonzero
max_bytes ceiling is reached by the total byte count or a nonzero
max_duration ceiling is reached by the duration. It issues no store write.
-/

/-- Total byte count of a record. Modelled from the spec: the dvpnx model
method GetTotalBytes is not under src; the spec defines the quota test on
rx_bytes + tx_bytes, matching the legacy model method GetBytes which adds
the two counters. -/
def recordTotalBytes (r : Record) : Int :=
  r.rxBytes + r.txBytes

/-- Decision of one quota-enforcer iteration whether to invoke
RemovePeerIfExists for the record peer: translated statement by statement
from the two conditionals of NewSessionUsageValidateWorker. -/
def sessionUsageValidateRemovePeer (r : Record) : Bool :=
  let removePeer := false
  -- Check if the session exceeds the maximum allowed bytes.
  let removePeer := if !(r.maxBytes == 0) && (r.maxBytes ≤ recordTotalBytes r)
    then true else removePeer
  -- Check if the session exceeds the maximum allowed duration.
  if !(r.maxDuration == 0) && (r.maxDuration ≤ r.duration)
    then true else removePeer

/-- One tick of the quota enforcer: the handler only reads the store
(SessionFind with the node address and the active service type) and calls
RemovePeerIfExists; it contains no store write, so the store component is
returned untouched, next to the peer identifiers passed to removal. -/
def sessionUsageValidateTick (curType nodeAddr : String)
    (store : List Record) : List Record × List String :=
  let items := store.filter
    (fun r => r.nodeAddr == nodeAddr && r.serviceType == curType)
  (store, (items.filter sessionUsageValidateRemovePeer).map (fun r => r.peerId))

end SessionUsageValidateWorker

section SessionUsageSyncWithBlockchainWorker

/-!
The usage publisher worker, from workers/session.go of the dvpnx
generation (src/unnamed/part_015, NewSessionUsageSyncWithBlockchainWorker):
it loads the records with this node address, queries the ledger for each,
skips the record when the ledger reports no session or when the
ledger-recorded upload bytes equal the record rx_bytes, and collects one
update-session message per remaining record, broadcast as one transaction.
-/

/-- An update-session message as assembled by the publisher. -/
structure Msg where
  id : Nat
  downloadBytes : Int
  uploadBytes : Int
  duration : Int
deriving DecidableEq, Repr

/-- Message built from a record. Modelled from the spec: the dvpnx model
method MsgUpdateSessionRequest is not under src; per the spec the message
carries the session id, both counters and the duration, with the record
rx_bytes reported as the session upload bytes (the node receives what the
client uploads), the correspondence the publisher skip test also uses. -/
def msgUpdateSession (r : Record) : Msg :=
  { id := r.id
    downloadBytes := r.txBytes
    uploadBytes := r.rxBytes
    duration := r.duration }

/-- Decision of one publisher iteration whether the record contributes an
update message: skip on a nil session, skip when the ledger upload bytes
already equal the record rx_bytes. -/
def sessionUsageSyncShouldPublish (L : List LedgerSession) (r : Record) : Bool :=
  match ledgerGetSession L r.id with
  | none => false
  | some s => !(s.uploadBytes == r.rxBytes)

/-- One tick of the publisher: the update-session messages accumulated over
the records with this node address. -/
def sessionUsageSyncMsgs (L : List LedgerSession) (nodeAddr : String)
    (store : List Record) : List Msg :=
  ((store.filter (fun r => r.nodeAddr == nodeAddr)).filter
    (sessionUsageSyncShouldPublish L)).map msgUpdateSession

/-- Effect of one confirmed update-session message on one ledger session:
the recorded usage becomes the usage the message carries when the ids
match. -/
def applyMsgToSession (t : LedgerSession) (m : Msg) : LedgerSession :=
  if t.id == m.id then
    { t with downloadBytes := m.downloadBytes, uploadBytes := m.uploadBytes }
  else t

/-- Modelled from the spec: the ledger gateway is an external collaborator;
confirmation of a broadcast update-session message makes the ledger record
the usage the message carries for the matching session. -/
def ledgerApplyMsg (L : List LedgerSession) (m : Msg) : List LedgerSession :=
  L.map (fun s => applyMsgToSession s m)

/-- Modelled from the spec: ledger state once a whole broadcast batch is
confirmed. -/
def ledgerApplyMsgs (L : List LedgerSession) (ms : List Msg) : List LedgerSession :=
  ms.foldl ledgerApplyMsg L

/-- Formalisation of the spec wording that the ledger-recorded usage
matches the record local counters: both counter pairs agree. Stated from
the spec words, for comparison with the skip test of the source, which
compares only the upload/rx pair. -/
def specLedgerUsageMatches (s : LedgerSession) (r : Record) : Bool :=
  s.uploadBytes == r.rxBytes && s.downloadBytes == r.txBytes

end SessionUsageSyncWithBlockchainWorker

section SessionUsageSyncWithDatabaseWorker

/-!
The usage collector worker, from workers/session.go of the dvpnx
generation (src/unnamed/part_015, NewSessionUsageSyncWithDatabaseWorker):
it fetches the peer statistics from the service and, for each entry, skips
it when the statistics timestamp is older than the collection interval,
and otherwise calls SessionFindOneAndUpdate keyed on the peer id with the
new counters. The find-one-and-update operation is the one of
database/operations/session.go, which reports an absent record through its
error result.
-/

/-- A counter update carried to find-one-and-update by the collector. -/
structure RxTxUpdate where
  rxBytes : Int
  txBytes : Int
deriving DecidableEq, Repr

/-- Effect of an update statement on one record row. Modelled from the
spec for the duration column: the dvpnx model BeforeUpdate hook is not
under src; per the spec (and the legacy model hook of
database/models/session.go) the duration is recomputed as the elapsed time
since created_at exactly when a counter column changes, rows with a zero
id being left alone by the hook. -/
def recordApplyUpdate (now : Int) (r : Record) (u : RxTxUpdate) : Record :=
  let duration :=
    if r.id = 0 then r.duration
    else if u.rxBytes = r.rxBytes ∧ u.txBytes = r.txBytes then r.duration
    else now - r.createdAt
  { r with rxBytes := u.rxBytes, txBytes := u.txBytes,
           duration := duration, updatedAt := now }

/-- SessionFindOneAndUpdate of database/operations/session.go, applied to
the dvpnx record model: find the first record matching the query; when
none is found the source wraps the nil find error into a non-nil error and
returns no record; otherwise the rows with the found primary key are
updated. Result: the store, the returned record and the error value. -/
def recordFindOneAndUpdate (now : Int) (store : List Record)
    (query : Record → Bool) (u : RxTxUpdate) :
    List Record × Option Record × Option String :=
  match store.find? query with
  | none => (store, none, some "failed to find session for update")
  | some s =>
      (store.map (fun r => if r.id = s.id then recordApplyUpdate now r u else r),
       some (recordApplyUpdate now s u), none)

/-- One peer-statistics entry as returned by the service. -/
structure PeerStat where
  rxBytes : Int
  txBytes : Int
  updatedAt : Int
deriving DecidableEq, Repr

/-- One collector iteration for the entry of one peer: skip when the entry
timestamp is older than the collection interval, otherwise
find-one-and-update keyed on the peer id; the error value of the
operation, when any, is the error the iteration reports. -/
def sessionUsageSyncStep (now interval : Int) (store : List Record)
    (peerId : String) (st : PeerStat) : List Record × Option String :=
  if interval < now - st.updatedAt then (store, none)
  else
    match recordFindOneAndUpdate now store (fun r => r.peerId == peerId)
        { rxBytes := st.rxBytes, txBytes := st.txBytes } with
    | (store2, _, none) => (store2, none)
    | (_, _, some e) => (store, some e)

/-- One tick of the collector over a list of peer-statistics entries,
processed in order, stopping at the first failing entry as the job group
does. -/
def sessionUsageSyncWithDatabaseTick (now interval : Int)
    (stats : List (String × PeerStat)) (store : List Record) :
    List Record × Option String :=
  stats.foldl
    (fun acc p =>
      match acc.2 with
      | some _ => acc
      | none => sessionUsageSyncStep now interval acc.1 p.1 p.2)
    (store, none)

end SessionUsageSyncWithDatabaseWorker

section SessionModel

/-!
The session record model of database/models/session.go (the generation
with download_bytes and upload_bytes columns and the peer_key index) and
the single-record store operations of database/operations/session.go.
-/

/-- The database session record of database/models/session.go. -/
structure DbSession where
  createdAt : Int
  updatedAt : Int
  accAddr : String
  downloadBytes : Int
  duration : Int
  id : Nat
  maxBytes : Int
  maxDuration : Int
  nodeAddr : String
  peerKey : String
  serviceType : String
  signature : String
  uploadBytes : Int
deriving DecidableEq, Repr

/-- A counter update statement, carrying the new values of the
download_bytes and upload_bytes columns. -/
structure UsageUpdate where
  downloadBytes : Int
  uploadBytes : Int
deriving DecidableEq, Repr

/-- Whether the update statement changes the download_bytes or
upload_bytes column of the record, as tested by Statement.Changed in the
Session.BeforeUpdate hook. -/
def usageChanged (s : DbSession) (u : UsageUpdate) : Bool :=
  !(u.downloadBytes == s.downloadBytes && u.uploadBytes == s.uploadBytes)

/-- Effect of an update statement on one record, including the
Session.BeforeUpdate hook of database/models/session.go: a record with a
zero id is left alone by the hook; otherwise, when a counter column
changes, the duration column is set to the wall-clock time elapsed since
created_at; the counter columns and updated_at are then written. -/
def dbSessionApplyUpdate (now : Int) (s : DbSession) (u : UsageUpdate) : DbSession :=
  let duration :=
    if s.id = 0 then s.duration
    else if usageChanged s u then now - s.createdAt
    else s.duration
  { s with downloadBytes := u.downloadBytes, uploadBytes := u.uploadBytes,
           duration := duration, updatedAt := now }

/-- The record states reached from a record by a sequence of timed update
statements, earliest first, the start state included. -/
def dbSessionStates (s : DbSession) : List (Int × UsageUpdate) → List DbSession
  | [] => [s]
  | tu :: rest => s :: dbSessionStates (dbSessionApplyUpdate tu.1 s tu.2) rest

/-- SessionFindOne of database/operations/session.go: first record
matching the query; the absent case is translated to a nil record with a
nil error. Result: the found record and the error value. -/
def dbSessionFindOne (store : List DbSession) (query : DbSession → Bool) :
    Option DbSession × Option String :=
  (store.find? query, none)

/-- SessionFindOneAndUpdate of database/operations/session.go: find one
record, and when the find returns no record the source wraps the nil find
error into a non-nil error and returns no record; otherwise the rows with
the found primary key are updated. Result: the store, the returned record
and the error value. -/
def dbSessionFindOneAndUpdate (now : Int) (store : List DbSession)
    (query : DbSession → Bool) (u : UsageUpdate) :
    List DbSession × Option DbSession × Option String :=
  match (dbSessionFindOne store query).1 with
  | none => (store, none, some "failed to find session for update")
  | some s =>
      (store.map (fun r => if r.id = s.id then dbSessionApplyUpdate now r u else r),
       some (dbSessionApplyUpdate now s u), none)

/-- SessionFindOneAndDelete of database/operations/session.go: find one
record, and when the find returns no record the source wraps the nil find
error into a non-nil error and returns no record; otherwise the rows with
the found primary key are deleted. Result: the store, the returned record
and the error value. -/
def dbSessionFindOneAndDelete (store : List DbSession)
    (query : DbSession → Bool) :
    List DbSession × Option DbSession × Option String :=
  match (dbSessionFindOne store query).1 with
  | none => (store, none, some "failed to find session for deletion")
  | some s =>
      (store.filter (fun r => !(r.id == s.id)), some s, none)

end SessionModel

section AdmissionHandler

/-!
The admission handler handlerInitHandshake of api/handshake/handlers.go,
the handler the dvpnx API registers for session admission. The embedding
records the sequence of external effects the handler performs (store
lookups and insert, ledger query, service add-peer and remove-peer calls)
so that which effects a path performs is part of the proved statements.
-/

/-- One external effect of the admission handler. -/
inductive Eff where
  | dbFindById (id : Nat)
  | dbFindByPeerRequest (data : String)
  | ledgerGet (id : Nat)
  | svcAddPeer (data : String)
  | svcRemovePeer (peerId : String)
  | dbInsert (id : Nat)
deriving DecidableEq, Repr

/-- The parsed and verified handshake request: the ledger session id, the
opaque peer-connection payload and the account address recovered from the
request signature. -/
structure HsRequest where
  id : Nat
  data : String
  accAddr : String
deriving DecidableEq, Repr

/-- The inputs of one admission call that the handler consumes from its
collaborators: the current peer count and the configured maximum, the
request parse outcome, the ledger content, the node identity and active
service type, and the outcomes of the fallible external steps (account
address decoding, add-peer, response encoding, store insert). -/
structure HsInput where
  peersLen : Nat
  maxPeers : Nat
  request : Option HsRequest
  ledger : List LedgerSession
  nodeAddr : String
  curType : String
  accAddrParseOk : Bool
  addPeer : Option (String × String)
  marshalOk : Bool
  insertOk : Bool
  now : Int
deriving Repr

/-- Outcome of one admission call: HTTP status, handler error code (zero
on success), resulting store and the ordered external effects. -/
structure HsOutcome where
  status : Nat
  code : Nat
  store : List Record
  effs : List Eff
deriving DecidableEq, Repr

/-- The record the handler inserts after a successful add-peer: counters
zeroed, quota ceilings copied from the ledger session, identity fields
from the request and the node. -/
def newAdmittedRecord (w : HsInput) (req : HsRequest) (s : LedgerSession)
    (peerId : String) : Record :=
  { id := s.id
    accAddr := s.accAddress
    nodeAddr := w.nodeAddr
    peerId := peerId
    peerRequest := req.data
    serviceType := w.curType
    rxBytes := 0
    txBytes := 0
    duration := 0
    maxBytes := s.maxBytes
    maxDuration := s.maxDuration
    createdAt := w.now
    updatedAt := w.now }

/-- handlerInitHandshake of api/handshake/handlers.go, translated check by
check: reject with 409 when the peer count has reached the maximum; 400 on
a bad request; 409 when a record already exists for the session id or the
peer request data; 404 when the ledger reports no session; 400 when the
session is not active or not bound to this node; 500 when the session
account address does not decode; 401 when it differs from the request
account; then add-peer (500 on failure), encode the response (500 on
failure) and insert the record (500 on failure); 200 with the record
inserted otherwise. -/
def handlerInitHandshake (w : HsInput) (store : List Record) : HsOutcome :=
  -- Reject handshake if maximum peer limit is reached.
  if w.maxPeers ≤ w.peersLen then
    { status := 409, code := 1, store := store, effs := [] }
  else
    match w.request with
    | none => { status := 400, code := 2, store := store, effs := [] }
    | some req =>
      -- Check if a session already exists by ID.
      let e1 : List Eff := [Eff.dbFindById req.id]
      match store.find? (fun r => r.id == req.id) with
      | some _ => { status := 409, code := 3, store := store, effs := e1 }
      | none =>
        -- Check if a session already exists by peer request data.
        let e2 := e1 ++ [Eff.dbFindByPeerRequest req.data]
        match store.find? (fun r => r.peerRequest == req.data) with
        | some _ => { status := 409, code := 4, store := store, effs := e2 }
        | none =>
          -- Fetch session details from blockchain.
          let e3 := e2 ++ [Eff.ledgerGet req.id]
          match ledgerGetSession w.ledger req.id with
          | none => { status := 404, code := 5, store := store, effs := e3 }
          | some s =>
            -- Validate session status.
            if !(s.status == Status.active) then
              { status := 400, code := 5, store := store, effs := e3 }
            -- Validate node address.
            else if !(s.nodeAddress == w.nodeAddr) then
              { status := 400, code := 6, store := store, effs := e3 }
            -- Validate account address.
            else if !w.accAddrParseOk then
              { status := 500, code := 6, store := store, effs := e3 }
            else if !(req.accAddr == s.accAddress) then
              { status := 401, code := 6, store := store, effs := e3 }
            else
              -- Add the peer to the active service.
              let e4 := e3 ++ [Eff.svcAddPeer req.data]
              match w.addPeer with
              | none => { status := 500, code := 7, store := store, effs := e4 }
              | some (peerId, _) =>
                -- Encode and prepare the handshake response.
                if !w.marshalOk then
                  { status := 500, code := 8, store := store, effs := e4 }
                else
                  -- Insert the session record into the database.
                  let e5 := e4 ++ [Eff.dbInsert s.id]
                  if !w.insertOk then
                    { status := 500, code := 9, store := store, effs := e5 }
                  else
                    { status := 200, code := 0,
                      store := store ++ [newAdmittedRecord w req s peerId],
                      effs := e5 }

/-- A concrete parsed request used in concrete runs of the handler. -/
def hsReq : HsRequest :=
  { id := 42, data := "payload", accAddr := "acc1" }

/-- A concrete active ledger session bound to this node and matching
hsReq. -/
def hsLedgerSession : LedgerSession :=
  { id := 42, accAddress := "acc1", nodeAddress := "node1",
    status := Status.active, downloadBytes := 0, uploadBytes := 0,
    maxBytes := 1000000, maxDuration := 0 }

/-- A concrete admission input on which every validation passes, AddPeer
succeeds and the store insert fails. -/
def hsInsertFailInput : HsInput :=
  { peersLen := 1, maxPeers := 250, request := some hsReq,
    ledger := [hsLedgerSession], nodeAddr := "node1", curType := "wireguard",
    accAddrParseOk := true, addPeer := some ("pk-A", "conn-data"),
    marshalOk := true, insertOk := false, now := 0 }

end AdmissionHandler

section ConcreteInputs

/-- A concrete record of service type v2ray, used on runs of the
reconciler on a node whose active service is wireguard. -/
def rV2ray : Record :=
  { id := 7, accAddr := "acc1", nodeAddr := "node1", peerId := "pk-A",
    peerRequest := "req-A", serviceType := "v2ray", rxBytes := 0,
    txBytes := 0, duration := 0, maxBytes := 0, maxDuration := 0,
    createdAt := 0, updatedAt := 0 }

/-- A concrete record used on runs of the publisher. -/
def rPub : Record :=
  { id := 9, accAddr := "acc1", nodeAddr := "node1", peerId := "pk-B",
    peerRequest := "req-B", serviceType := "wireguard", rxBytes := 5,
    txBytes := 7, duration := 0, maxBytes := 0, maxDuration := 0,
    createdAt := 0, updatedAt := 0 }

/-- A concrete ledger session for rPub whose upload bytes already equal
the record rx_bytes while its download bytes differ from the record
tx_bytes. -/
def lsPub : LedgerSession :=
  { id := 9, accAddress := "acc1", nodeAddress := "node1",
    status := Status.active, downloadBytes := 3, uploadBytes := 5,
    maxBytes := 0, maxDuration := 0 }

/-- The example record of the spec scenario: session id 42, peer pk-A,
counters 600000 and 500000, max_bytes 1000000. -/
def rQuota : Record :=
  { id := 42, accAddr := "acc1", nodeAddr := "node1", peerId := "pk-A",
    peerRequest := "req-42", serviceType := "wireguard", rxBytes := 600000,
    txBytes := 500000, duration := 0, maxBytes := 1000000, maxDuration := 0,
    createdAt := 0, updatedAt := 0 }

/-- A concrete ledger session for rPub whose recorded upload bytes differ
from the record rx_bytes. -/
def lsPubStale : LedgerSession :=
  { id := 9, accAddress := "acc1", nodeAddress := "node1",
    status := Status.active, downloadBytes := 0, uploadBytes := 0,
    maxBytes := 0, maxDuration := 0 }

end ConcreteInputs

section ClaimC3

/-- C3: for every admission request, the handler rejects immediately, before
any record lookup, ledger query or peer creation, when the current peer
count is at least the configured max-peers, returning the limit-reached
conflict status: whatever the store, the ledger and the other inputs hold,
the outcome is the 409 response with code 1, the store is untouched and
the effect trace is empty. -/
theorem admission_rejects_at_peer_limit (w : HsInput) (store : List Record)
    (h : w.maxPeers ≤ w.peersLen) :
    handlerInitHandshake w store =
      { status := 409, code := 1, store := store, effs := [] } := by
  unfold handlerInitHandshake
  simp [h]

/-- Witness for the peer-limit rejection: a node at its configured maximum
of 250 peers answers 409 with code 1 and no external effect. -/
theorem admission_rejects_at_peer_limit_witness :
    handlerInitHandshake
      { peersLen := 250, maxPeers := 250, request := none, ledger := [],
        nodeAddr := "node1", curType := "wireguard", accAddrParseOk := true,
        addPeer := none, marshalOk := true, insertOk := true, now := 0 } [] =
      { status := 409, code := 1, store := [], effs := [] } :=
  admission_rejects_at_peer_limit _ [] (by decide)

end ClaimC3

section ClaimC2

/-- C2 as amended: the admission handler leaves no partial record, but it
performs no compensating peer removal either. For every input whose request
parses: no path of the handler ever calls RemovePeer; when AddPeer fails
the store is unchanged; when the insert fails the store is unchanged; and
on any path that reached AddPeer the store held no record for the request
id or payload, so an AddPeer failure leaves no record for that request. -/
theorem admission_no_partial_record_no_compensation (w : HsInput)
    (store : List Record) (req : HsRequest) (hreq : w.request = some req) :
    (∀ pid, Eff.svcRemovePeer pid ∉ (handlerInitHandshake w store).effs) ∧
    (w.addPeer = none → (handlerInitHandshake w store).store = store) ∧
    (w.insertOk = false → (handlerInitHandshake w store).store = store) ∧
    (Eff.svcAddPeer req.data ∈ (handlerInitHandshake w store).effs →
      store.find? (fun r => r.id == req.id) = none ∧
      store.find? (fun r => r.peerRequest == req.data) = none) := by
  unfold handlerInitHandshake
  rw [hreq]
  repeat' split
  all_goals simp_all

/-- Witness for the amended C2: a run in which every validation passes,
AddPeer succeeds and the insert fails, at which the handler leaves the
store unchanged and never calls RemovePeer. -/
theorem admission_no_partial_record_no_compensation_witness :
    (∀ pid, Eff.svcRemovePeer pid ∉
      (handlerInitHandshake hsInsertFailInput []).effs) ∧
    (handlerInitHandshake hsInsertFailInput []).store = ([] : List Record) :=
  ⟨(admission_no_partial_record_no_compensation hsInsertFailInput [] hsReq rfl).1,
   (admission_no_partial_record_no_compensation hsInsertFailInput [] hsReq rfl).2.2.1 rfl⟩

/-- Counterexample to C2 as stated: on the concrete run in which AddPeer
succeeded (the add-peer effect is in the trace) and the subsequent insert
failed, the handler returns the 500 insert-failure response without any
RemovePeer call in its effect trace, so no compensating peer removal is
attempted. -/
theorem admission_compensating_removal_cex :
    (handlerInitHandshake hsInsertFailInput []).status = 500 ∧
    (handlerInitHandshake hsInsertFailInput []).code = 9 ∧
    Eff.svcAddPeer "payload" ∈ (handlerInitHandshake hsInsertFailInput []).effs ∧
    ∀ pid, Eff.svcRemovePeer pid ∉ (handlerInitHandshake hsInsertFailInput []).effs := by
  refine ⟨by decide, by decide, by decide, ?_⟩
  intro pid
  simp [handlerInitHandshake, hsInsertFailInput, hsReq, hsLedgerSession, ledgerGetSession]

end ClaimC2

section ClaimC5

/-- C5: for every record examined by one quota-enforcer tick (the records
matching this node address and the active service type), peer removal is
triggered exactly when a nonzero max_bytes is reached by rx_bytes plus
tx_bytes or a nonzero max_duration is reached by the duration; a zero
ceiling never triggers removal by itself. The tick passes to removal
precisely the peers of the examined records satisfying that decision. -/
theorem usage_validate_remove_iff :
    (∀ r : Record,
      sessionUsageValidateRemovePeer r = true ↔
        ((r.maxBytes ≠ 0 ∧ r.maxBytes ≤ r.rxBytes + r.txBytes) ∨
         (r.maxDuration ≠ 0 ∧ r.maxDuration ≤ r.duration))) ∧
    (∀ (curType nodeAddr : String) (store : List Record),
      (sessionUsageValidateTick curType nodeAddr store).2 =
        ((store.filter
            (fun r => r.nodeAddr == nodeAddr && r.serviceType == curType)).filter
          sessionUsageValidateRemovePeer).map (fun r => r.peerId)) := by
  constructor
  · intro r
    unfold sessionUsageValidateRemovePeer recordTotalBytes
    by_cases h1 : r.maxBytes = 0 <;> by_cases h2 : r.maxDuration = 0 <;>
      · simp [h1, h2]
        try tauto
  · intro curType nodeAddr store
    rfl

end ClaimC5

section ClaimC9

/-- C9: one quota-enforcer tick performs no session store write; the
enforcer handler only reads the store and calls the peer removal, so the
store after the tick is the store before it and every record that existed
before still exists afterwards with all its fields unchanged, including
the records whose peer the tick passed to removal; on the spec example
scenario, the tick removes peer pk-A while the record of session 42 stays
with its counters 600000 and 500000. -/
theorem usage_validate_tick_preserves_store :
    (∀ (curType nodeAddr : String) (store : List Record),
      (sessionUsageValidateTick curType nodeAddr store).1 = store ∧
      ∀ r ∈ store, r ∈ (sessionUsageValidateTick curType nodeAddr store).1) ∧
    sessionUsageValidateTick "wireguard" "node1" [rQuota] =
      ([rQuota], ["pk-A"]) ∧
    rQuota.rxBytes = 600000 ∧ rQuota.txBytes = 500000 := by
  refine ⟨fun curType nodeAddr store => ⟨rfl, fun r hr => hr⟩, by decide, rfl, rfl⟩

end ClaimC9

section ClaimC4

/-- Counterexample to C4 as stated: on the empty store with the
all-accepting query, find-one-and-update and find-one-and-delete report
the absent record through a non-nil error value instead of the successful
empty result the claim demands of every single-record operation. -/
theorem find_ops_absent_error_cex :
    (dbSessionFindOneAndUpdate 0 [] (fun _ => true)
        { downloadBytes := 1, uploadBytes := 2 }).2.2 ≠ none ∧
    (dbSessionFindOneAndDelete [] (fun _ => true)).2.2 ≠ none := by
  constructor <;> simp [dbSessionFindOneAndUpdate, dbSessionFindOneAndDelete,
    dbSessionFindOne]

/-- C4 as amended: find-one reports an absent record as a successful empty
result (nil record, nil error); find-one-and-update and find-one-and-delete
instead report an absent record through a non-nil error value, returning
no record and leaving the store unchanged. -/
theorem find_ops_absent_behaviour (store : List DbSession)
    (q : DbSession → Bool) (now : Int) (u : UsageUpdate)
    (habs : store.find? q = none) :
    dbSessionFindOne store q = (none, none) ∧
    dbSessionFindOneAndUpdate now store q u =
      (store, none, some "failed to find session for update") ∧
    dbSessionFindOneAndDelete store q =
      (store, none, some "failed to find session for deletion") := by
  unfold dbSessionFindOneAndUpdate dbSessionFindOneAndDelete dbSessionFindOne
  rw [habs]
  exact ⟨rfl, rfl, rfl⟩

/-- Witness for the amended C4: the three operations evaluated on the
empty store with a concrete query. -/
theorem find_ops_absent_behaviour_witness :
    dbSessionFindOne [] (fun s => s.id == 7) = (none, none) ∧
    dbSessionFindOneAndUpdate 5 [] (fun s => s.id == 7)
        { downloadBytes := 1, uploadBytes := 2 } =
      ([], none, some "failed to find session for update") ∧
    dbSessionFindOneAndDelete [] (fun s => s.id == 7) =
      ([], none, some "failed to find session for deletion") :=
  find_ops_absent_behaviour [] (fun s => s.id == 7) 5
    { downloadBytes := 1, uploadBytes := 2 } rfl

end ClaimC4

section ClaimC1

/-- Counterexample to C1 as stated: for the concrete record of service
type v2ray on a node whose active service is wireguard, the ledger reports
no session for the record id, yet the reconciler does not invoke peer
removal: the service-type mismatch suppresses removal instead of
triggering it. -/
theorem validate_remove_mismatch_cex :
    ledgerGetSession [] rV2ray.id = none ∧
    rV2ray.serviceType ≠ "wireguard" ∧
    sessionValidateRemovePeer [] "wireguard" rV2ray = false ∧
    ¬ (ledgerGetSession [] rV2ray.id = none →
        sessionValidateRemovePeer [] "wireguard" rV2ray = true) := by
  refine ⟨rfl, by decide, by decide, ?_⟩
  intro h
  exact absurd (h rfl) (by decide)

/-- C1 as amended: during one reconciler tick, peer removal
(remove-if-exists) is invoked for a record exactly when its service type
matches the node active service type and the ledger reports no session for
the record id or the reported status is not active; a service-type
mismatch suppresses removal. -/
theorem validate_remove_iff (L : List LedgerSession) (curType : String)
    (r : Record) :
    sessionValidateRemovePeer L curType r = true ↔
      (r.serviceType = curType ∧
        (ledgerGetSession L r.id = none ∨
          ∃ s, ledgerGetSession L r.id = some s ∧ s.status ≠ Status.active)) := by
  unfold sessionValidateRemovePeer
  cases h : ledgerGetSession L r.id with
  | none => by_cases ht : r.serviceType = curType <;> simp [h, ht]
  | some s =>
      by_cases ht : r.serviceType = curType <;>
        by_cases hs : s.status = Status.active <;> simp [h, ht, hs]

end ClaimC1

section ClaimC7

/-- Counterexample to C7 as stated: for a concrete fresh statistics entry
whose peer has no session store record, the collector iteration does not
skip silently; find-one-and-update reports the absent record through a
non-nil error, which the iteration propagates. -/
theorem usage_sync_missing_record_cex :
    (sessionUsageSyncStep 10 5 [] "pk-A"
        { rxBytes := 1, txBytes := 2, updatedAt := 8 }).2 ≠ none := by
  simp [sessionUsageSyncStep, recordFindOneAndUpdate]

/-- C7 as amended: a collector iteration skips an entry (store unchanged,
no error) when the entry timestamp is older than the collection interval;
otherwise it runs find-one-and-update keyed on the peer id, which updates
the counters of the matching record when one exists and reports an error,
failing the iteration, when no record exists for the peer id. -/
theorem usage_sync_step_behaviour (now interval : Int) (store : List Record)
    (pid : String) (st : PeerStat) :
    (interval < now - st.updatedAt →
      sessionUsageSyncStep now interval store pid st = (store, none)) ∧
    (¬ interval < now - st.updatedAt →
      store.find? (fun r => r.peerId == pid) = none →
      sessionUsageSyncStep now interval store pid st =
        (store, some "failed to find session for update")) ∧
    (¬ interval < now - st.updatedAt →
      ∀ s, store.find? (fun r => r.peerId == pid) = some s →
      sessionUsageSyncStep now interval store pid st =
        (store.map (fun r =>
          if r.id = s.id then
            recordApplyUpdate now r { rxBytes := st.rxBytes, txBytes := st.txBytes }
          else r), none)) := by
  refine ⟨?_, ?_, ?_⟩
  · intro h
    simp [sessionUsageSyncStep, h]
  · intro h habs
    simp [sessionUsageSyncStep, h, recordFindOneAndUpdate, habs]
  · intro h s hs
    simp [sessionUsageSyncStep, h, recordFindOneAndUpdate, hs]

/-- Witness for the amended C7: the three iteration behaviours at concrete
inputs: a stale entry is skipped, a fresh entry without a record fails
with the find error, and a fresh entry with a record updates its
counters. -/
theorem usage_sync_step_behaviour_witness :
    (sessionUsageSyncStep 20 5 [rPub] "pk-B"
        { rxBytes := 1, txBytes := 2, updatedAt := 8 } = ([rPub], none)) ∧
    (sessionUsageSyncStep 10 5 [] "pk-A"
        { rxBytes := 1, txBytes := 2, updatedAt := 8 } =
      ([], some "failed to find session for update")) ∧
    (sessionUsageSyncStep 10 5 [rPub] "pk-B"
        { rxBytes := 6, txBytes := 8, updatedAt := 8 } =
      ([recordApplyUpdate 10 rPub { rxBytes := 6, txBytes := 8 }], none)) := by
  refine ⟨?_, ?_, ?_⟩
  · exact (usage_sync_step_behaviour 20 5 [rPub] "pk-B"
      { rxBytes := 1, txBytes := 2, updatedAt := 8 }).1 (by decide)
  · exact (usage_sync_step_behaviour 10 5 [] "pk-A"
      { rxBytes := 1, txBytes := 2, updatedAt := 8 }).2.1 (by decide) rfl
  · have h := (usage_sync_step_behaviour 10 5 [rPub] "pk-B"
      { rxBytes := 6, txBytes := 8, updatedAt := 8 }).2.2 (by decide)
      rPub (by decide)
    rw [h]
    simp [rPub]

end ClaimC7

section ClaimC8

/-- The created_at column is untouched by an update statement. -/
theorem aux_applyUpdate_createdAt (now : Int) (s : DbSession) (u : UsageUpdate) :
    (dbSessionApplyUpdate now s u).createdAt = s.createdAt := rfl

/-- The duration after an update statement is either the previous duration
or the elapsed time since created_at. -/
theorem aux_applyUpdate_duration (now : Int) (s : DbSession) (u : UsageUpdate) :
    (dbSessionApplyUpdate now s u).duration = s.duration ∨
    (dbSessionApplyUpdate now s u).duration = now - s.createdAt := by
  unfold dbSessionApplyUpdate
  by_cases h0 : s.id = 0 <;> by_cases hc : usageChanged s u <;> simp [h0, hc]

/-- Durations are non-decreasing along the states reached by a sequence of
timed update statements whose times are pairwise non-decreasing and at or
after created_at, provided the start duration is at most the elapsed time
at each update. -/
theorem aux_states_chain :
    ∀ (us : List (Int × UsageUpdate)) (x : DbSession),
      (∀ p ∈ us, x.createdAt ≤ p.1 ∧ x.duration ≤ p.1 - x.createdAt) →
      List.Pairwise (fun a b : Int × UsageUpdate => a.1 ≤ b.1) us →
      List.Chain' (fun a b : DbSession => a.duration ≤ b.duration)
        (dbSessionStates x us)
  | [], x, _, _ => by simp [dbSessionStates]
  | (t, u) :: rest, x, hx, hp => by
      have hx0 := hx (t, u) (List.mem_cons_self _ _)
      have hd := aux_applyUpdate_duration t x u
      have hstep : x.duration ≤ (dbSessionApplyUpdate t x u).duration := by
        rcases hd with h | h <;> rw [h]
        exact hx0.2
      have hrest : ∀ p ∈ rest,
          (dbSessionApplyUpdate t x u).createdAt ≤ p.1 ∧
          (dbSessionApplyUpdate t x u).duration ≤
            p.1 - (dbSessionApplyUpdate t x u).createdAt := by
        intro p hpmem
        have h1 := hx p (List.mem_cons_of_mem _ hpmem)
        have hT : t ≤ p.1 := (List.pairwise_cons.mp hp).1 p hpmem
        rw [aux_applyUpdate_createdAt]
        refine ⟨h1.1, ?_⟩
        rcases hd with h | h <;> rw [h]
        · exact h1.2
        · exact sub_le_sub_right hT _
      have ih := aux_states_chain rest (dbSessionApplyUpdate t x u) hrest
        (List.pairwise_cons.mp hp).2
      cases rest with
      | nil =>
          simp only [dbSessionStates, List.chain'_cons, List.chain'_singleton,
            and_true]
          exact hstep
      | cons q rest2 =>
          simp only [dbSessionStates] at ih ⊢
          exact List.chain'_cons.mpr ⟨hstep, ih⟩

/-- C8: for a session record as created by the admission handler (duration
zero) and any sequence of update statements at non-decreasing wall-clock
times not before created_at, the duration column is non-decreasing from
state to state; moreover, on a record with a nonzero id, one update
statement recomputes duration as the elapsed time since created_at exactly
when it changes a counter column, and leaves it unchanged otherwise. -/
theorem session_duration_monotone (s : DbSession) (us : List (Int × UsageUpdate))
    (hdur : s.duration = 0)
    (hge : ∀ p ∈ us, s.createdAt ≤ p.1)
    (hsorted : List.Pairwise (fun a b : Int × UsageUpdate => a.1 ≤ b.1) us) :
    List.Chain' (fun a b : DbSession => a.duration ≤ b.duration)
      (dbSessionStates s us) ∧
    (∀ (t : Int) (u : UsageUpdate) (x : DbSession), x.id ≠ 0 →
      (usageChanged x u = true →
        (dbSessionApplyUpdate t x u).duration = t - x.createdAt) ∧
      (usageChanged x u = false →
        (dbSessionApplyUpdate t x u).duration = x.duration)) := by
  constructor
  · refine aux_states_chain us s (fun p hp => ⟨hge p hp, ?_⟩) hsorted
    rw [hdur]
    have := hge p hp
    omega
  · intro t u x hx
    constructor <;> intro hc <;> unfold dbSessionApplyUpdate <;> simp [hx, hc]

/-- Witness for C8: the example record admitted with zeroed counters at
time 100, updated at times 110 (counters change), 120 (no change) and 130
(counters change): the durations along the states are 0, 10, 10, 30 and
non-decreasing, by the theorem instantiated there. -/
theorem session_duration_monotone_witness :
    List.Chain' (fun a b : DbSession => a.duration ≤ b.duration)
      (dbSessionStates
        { createdAt := 100, updatedAt := 100, accAddr := "acc1",
          downloadBytes := 0, duration := 0, id := 42, maxBytes := 1000000,
          maxDuration := 0, nodeAddr := "node1", peerKey := "pk-A",
          serviceType := "wireguard", signature := "", uploadBytes := 0 }
        [(110, { downloadBytes := 600000, uploadBytes := 500000 }),
         (120, { downloadBytes := 600000, uploadBytes := 500000 }),
         (130, { downloadBytes := 700000, uploadBytes := 500000 })]) :=
  (session_duration_monotone _ _ rfl (by decide) (by decide)).1

end ClaimC8

section ClaimC10

/-- The reconciler fold, with any start accumulator, splits into the store
deletions and the removal list. -/
theorem aux_tick_fold (L : List LedgerSession) (curType : String) :
    ∀ (l : List Record) (a : List Record) (b : List String),
      l.foldl
        (fun acc r =>
          (if sessionValidateDeleteRecord L r then deleteFirstById acc.1 r.id else acc.1,
           if sessionValidateRemovePeer L curType r then acc.2 ++ [r.peerId] else acc.2))
        (a, b) =
      (recordDeleteFold L l a,
       b ++ (l.filter (sessionValidateRemovePeer L curType)).map (fun r => r.peerId))
  | [], a, b => by simp [recordDeleteFold]
  | r :: l, a, b => by
      simp only [List.foldl_cons]
      rw [aux_tick_fold L curType l]
      by_cases h : sessionValidateRemovePeer L curType r <;>
        simp [recordDeleteFold, h, List.filter_cons]

/-- The reconciler tick in closed form: the store after the per-record
deletions, next to the peers of the records whose removal decision holds. -/
theorem aux_tick_eq (L : List LedgerSession) (curType nodeAddr : String)
    (store : List Record) :
    sessionValidateTick L curType nodeAddr store =
      (recordDeleteFold L (store.filter (fun r => r.nodeAddr == nodeAddr)) store,
       ((store.filter (fun r => r.nodeAddr == nodeAddr)).filter
          (sessionValidateRemovePeer L curType)).map (fun r => r.peerId)) := by
  unfold sessionValidateTick
  rw [aux_tick_fold]
  simp

/-- The reconciler deletion fold over a concatenation. -/
theorem aux_delFold_append (L : List LedgerSession) :
    ∀ (l1 l2 : List Record) (st : List Record),
      recordDeleteFold L (l1 ++ l2) st =
        recordDeleteFold L l2 (recordDeleteFold L l1 st)
  | [], _, _ => rfl
  | r :: l1, l2, st => by
      show recordDeleteFold L (l1 ++ l2) _ = _
      rw [aux_delFold_append L l1 l2]
      rfl

/-- Row count of an id over a cons cell. -/
theorem aux_countId_cons (r : Record) (l : List Record) (n : Nat) :
    recordCountId (r :: l) n =
      (if r.id = n then 1 else 0) + recordCountId l n := by
  unfold recordCountId
  by_cases h : r.id = n
  · simp [List.filter_cons, h]
    omega
  · simp [List.filter_cons, h]

/-- A store none of whose rows carries the id has row count zero there. -/
theorem aux_countId_zero :
    ∀ (st : List Record) (n : Nat), (∀ x ∈ st, x.id ≠ n) →
      recordCountId st n = 0
  | [], _, _ => rfl
  | r :: st, n, h => by
      rw [aux_countId_cons, if_neg (h r (List.mem_cons_self _ _)),
        aux_countId_zero st n (fun x hx => h x (List.mem_cons_of_mem _ hx))]

/-- A member of a store with pairwise distinct ids has row count one. -/
theorem aux_countId_one :
    ∀ (st : List Record) (r : Record), r ∈ st →
      (st.map (fun x => x.id)).Nodup → recordCountId st r.id = 1
  | [], r, h, _ => absurd h (List.not_mem_nil r)
  | x :: st, r, h, hnd => by
      have hnd' := List.nodup_cons.mp hnd
      rcases List.mem_cons.mp h with rfl | hmem
      · rw [aux_countId_cons, if_pos rfl, aux_countId_zero st r.id]
        intro y hy hxy
        have hmm : y.id ∈ st.map (fun z => z.id) :=
          List.mem_map_of_mem (fun z => z.id) hy
        rw [hxy] at hmm
        exact hnd'.1 hmm
      · have hne : x.id ≠ r.id := by
          intro e
          have hmm : r.id ∈ st.map (fun z => z.id) :=
            List.mem_map_of_mem (fun z => z.id) hmem
          rw [← e] at hmm
          exact hnd'.1 hmm
        rw [aux_countId_cons, if_neg hne,
          aux_countId_one st r hmem hnd'.2]

/-- Deleting the first row with an id removes exactly one row of that id. -/
theorem aux_deleteFirst_count_self :
    ∀ (st : List Record) (n : Nat),
      recordCountId (deleteFirstById st n) n = recordCountId st n - 1
  | [], _ => rfl
  | r :: st, n => by
      unfold deleteFirstById
      by_cases h : r.id = n
      · rw [if_pos (by simpa using h), aux_countId_cons, if_pos h]
        omega
      · rw [if_neg (by simpa using h), aux_countId_cons, if_neg h,
          aux_countId_cons, if_neg h, aux_deleteFirst_count_self st n]
        omega

/-- Deleting the first row with one id leaves the row count of any other
id unchanged. -/
theorem aux_deleteFirst_count_other :
    ∀ (st : List Record) (m n : Nat), m ≠ n →
      recordCountId (deleteFirstById st m) n = recordCountId st n
  | [], _, _, _ => rfl
  | r :: st, m, n, hmn => by
      unfold deleteFirstById
      by_cases h : r.id = m
      · rw [if_pos (by simpa using h), aux_countId_cons,
          if_neg (fun e => hmn ((h ▸ e : m = n)))]
        omega
      · rw [if_neg (by simpa using h), aux_countId_cons, aux_countId_cons,
          aux_deleteFirst_count_other st m n hmn]

/-- The deletion fold over records none of which carries the id leaves the
row count of that id unchanged. -/
theorem aux_delFold_count (L : List LedgerSession) :
    ∀ (l : List Record) (st : List Record) (n : Nat),
      (∀ x ∈ l, x.id ≠ n) →
      recordCountId (recordDeleteFold L l st) n = recordCountId st n
  | [], _, _, _ => rfl
  | r :: l, st, n, h => by
      show recordCountId (recordDeleteFold L l _) n = _
      rw [aux_delFold_count L l _ n (fun x hx => h x (List.mem_cons_of_mem _ hx))]
      by_cases hc : sessionValidateDeleteRecord L r
      · rw [if_pos hc,
          aux_deleteFirst_count_other st r.id n (h r (List.mem_cons_self _ _))]
      · rw [if_neg hc]

/-- A service-type mismatch suppresses the reconciler removal decision. -/
theorem aux_remove_false_of_mismatch (L : List LedgerSession)
    (curType : String) (r : Record) (h : r.serviceType ≠ curType) :
    sessionValidateRemovePeer L curType r = false := by
  unfold sessionValidateRemovePeer
  simp [h]

/-- C10: a record of this node whose service type differs from the active
one and whose ledger session is missing is deleted from the store by one
reconciler tick while its peer is not passed to removal: after the tick no
row carries the record id, and the record peer id is absent from the
removal list (record ids and peer ids being pairwise distinct, as the
store primary key and unique index enforce). -/
theorem validate_tick_mismatch_deletes_without_removal
    (L : List LedgerSession) (curType nodeAddr : String)
    (store : List Record) (r : Record)
    (hmem : r ∈ store) (hna : r.nodeAddr = nodeAddr)
    (hmis : r.serviceType ≠ curType)
    (hnil : ledgerGetSession L r.id = none)
    (hidnd : (store.map (fun x => x.id)).Nodup)
    (hpknd : (store.map (fun x => x.peerId)).Nodup) :
    (∀ x ∈ (sessionValidateTick L curType nodeAddr store).1, x.id ≠ r.id) ∧
    r.peerId ∉ (sessionValidateTick L curType nodeAddr store).2 := by
  rw [aux_tick_eq]
  have hrit : r ∈ store.filter (fun x => x.nodeAddr == nodeAddr) :=
    List.mem_filter.mpr ⟨hmem, by simp [hna]⟩
  have hsub : (store.filter (fun x => x.nodeAddr == nodeAddr)).Sublist store :=
    List.filter_sublist _
  have hidnd2 :
      ((store.filter (fun x => x.nodeAddr == nodeAddr)).map (fun x => x.id)).Nodup :=
    (hsub.map (fun x => x.id)).nodup hidnd
  constructor
  · -- the deletion fold drives the row count of the record id to zero
    obtain ⟨pre, post, hsplit⟩ := List.append_of_mem hrit
    have hnd3 : ((pre ++ r :: post).map (fun x => x.id)).Nodup := by
      rw [← hsplit]; exact hidnd2
    rw [List.map_append, List.map_cons] at hnd3
    have hnd4 := List.nodup_append.mp hnd3
    have hpre : ∀ x ∈ pre, x.id ≠ r.id := by
      intro x hx e
      exact hnd4.2.2 (e ▸ List.mem_map_of_mem (fun z => z.id) hx)
        (List.mem_cons_self _ _)
    have hpost : ∀ x ∈ post, x.id ≠ r.id := by
      intro x hx e
      exact (List.nodup_cons.mp hnd4.2.1).1
        (e ▸ List.mem_map_of_mem (fun z => z.id) hx)
    have hdel : sessionValidateDeleteRecord L r = true := by
      simp [sessionValidateDeleteRecord, hnil]
    have hcount : recordCountId
        (recordDeleteFold L (store.filter (fun x => x.nodeAddr == nodeAddr)) store)
        r.id = 0 := by
      rw [hsplit, aux_delFold_append]
      show recordCountId (recordDeleteFold L post _) r.id = 0
      rw [if_pos hdel]
      rw [aux_delFold_count L post _ r.id hpost,
        aux_deleteFirst_count_self, aux_delFold_count L pre store r.id hpre,
        aux_countId_one store r hmem hidnd]
    intro x hx e
    have : x ∈ (recordDeleteFold L (store.filter (fun z => z.nodeAddr == nodeAddr))
        store).filter (fun z => z.id == r.id) :=
      List.mem_filter.mpr ⟨hx, by simp [e]⟩
    rw [List.length_eq_zero.mp hcount] at this
    exact absurd this (List.not_mem_nil x)
  · -- the removal list holds no record with this peer id
    intro hin
    obtain ⟨x, hxmem, hxeq⟩ := List.mem_map.mp hin
    have hxf := List.mem_filter.mp hxmem
    have hxstore : x ∈ store := hsub.subset hxf.1
    have hxr : x = r :=
      List.inj_on_of_nodup_map hpknd hxstore hmem hxeq
    rw [hxr, aux_remove_false_of_mismatch L curType r hmis] at hxf
    exact absurd hxf.2 (by simp)

/-- Witness for C10: the store holding exactly the v2ray record, the empty
ledger and a node whose active service is wireguard: the tick leaves no
row with the record id and does not pass the record peer to removal. -/
theorem validate_tick_mismatch_deletes_without_removal_witness :
    (∀ x ∈ (sessionValidateTick [] "wireguard" "node1" [rV2ray]).1,
      x.id ≠ rV2ray.id) ∧
    rV2ray.peerId ∉ (sessionValidateTick [] "wireguard" "node1" [rV2ray]).2 :=
  validate_tick_mismatch_deletes_without_removal [] "wireguard" "node1"
    [rV2ray] rV2ray (by decide) rfl (by decide) rfl (by decide) (by decide)

end ClaimC10

section ClaimC6

/-- Applying a message preserves the session id. -/
theorem aux_applyMsg_id (s : LedgerSession) (m : Msg) :
    (applyMsgToSession s m).id = s.id := by
  unfold applyMsgToSession
  by_cases h : s.id == m.id <;> simp [h]

/-- Ledger lookup commutes with applying one message. -/
theorem aux_lookup_applyMsg (m : Msg) :
    ∀ (L : List LedgerSession) (n : Nat),
      ledgerGetSession (ledgerApplyMsg L m) n =
        (ledgerGetSession L n).map (fun s => applyMsgToSession s m)
  | [], _ => rfl
  | s :: rest, n => by
      unfold ledgerGetSession ledgerApplyMsg
      simp only [List.map_cons]
      by_cases h : s.id = n
      · rw [List.find?_cons_of_pos _ (by simp [aux_applyMsg_id, h]),
          List.find?_cons_of_pos _ (by simp [h])]
        rfl
      · rw [List.find?_cons_of_neg _ (by simp [aux_applyMsg_id, h]),
          List.find?_cons_of_neg _ (by simp [h])]
        exact aux_lookup_applyMsg m rest n

/-- Ledger lookup after a confirmed batch: the original lookup with the
batch folded over the found session. -/
theorem aux_lookup_applyMsgs :
    ∀ (ms : List Msg) (L : List LedgerSession) (n : Nat),
      ledgerGetSession (ledgerApplyMsgs L ms) n =
        (ledgerGetSession L n).map (fun s => ms.foldl applyMsgToSession s)
  | [], L, n => by
      cases h : ledgerGetSession L n <;> simp [ledgerApplyMsgs, h]
  | m :: ms, L, n => by
      show ledgerGetSession (ledgerApplyMsgs (ledgerApplyMsg L m) ms) n = _
      rw [aux_lookup_applyMsgs ms, aux_lookup_applyMsg]
      cases h : ledgerGetSession L n <;> simp

/-- Folding messages none of which carries the session id leaves the
session untouched. -/
theorem aux_msgFold_skip :
    ∀ (ms : List Msg) (s : LedgerSession), (∀ m ∈ ms, ¬ s.id = m.id) →
      ms.foldl applyMsgToSession s = s
  | [], _, _ => rfl
  | m :: ms, s, h => by
      simp only [List.foldl_cons]
      rw [show applyMsgToSession s m = s by
        unfold applyMsgToSession
        rw [if_neg (by simp [h m (List.mem_cons_self _ _)])]]
      exact aux_msgFold_skip ms s (fun x hx => h x (List.mem_cons_of_mem _ hx))

/-- Folding a batch holding exactly one message with the session id makes
the session record the usage that message carries. -/
theorem aux_msgFold_update (a b : List Msg) (m : Msg) (s : LedgerSession)
    (ha : ∀ x ∈ a, ¬ s.id = x.id) (hm : m.id = s.id)
    (hb : ∀ x ∈ b, ¬ s.id = x.id) :
    (a ++ m :: b).foldl applyMsgToSession s =
      { s with downloadBytes := m.downloadBytes, uploadBytes := m.uploadBytes } := by
  rw [List.foldl_append, aux_msgFold_skip a s ha]
  simp only [List.foldl_cons]
  rw [show applyMsgToSession s m =
      { s with downloadBytes := m.downloadBytes, uploadBytes := m.uploadBytes } by
    unfold applyMsgToSession
    rw [if_pos (by simp [hm])]]
  exact aux_msgFold_skip b _ hb

/-- A found ledger session carries the looked-up id. -/
theorem aux_lookup_id {L : List LedgerSession} {n : Nat} {s : LedgerSession}
    (h : ledgerGetSession L n = some s) : s.id = n := by
  have := List.find?_some h
  simpa using this

/-- Counterexample to C6 as stated: the concrete record examined by the
publisher (its node address matches) whose ledger session exists and whose
ledger-recorded usage does not match the local counters in the sense of
the spec (the download/tx pair differs), for which the publisher
nevertheless emits no message, because the source compares only the
upload/rx pair. -/
theorem usage_sync_partial_match_cex :
    rPub.nodeAddr = "node1" ∧
    ledgerGetSession [lsPub] rPub.id = some lsPub ∧
    specLedgerUsageMatches lsPub rPub = false ∧
    sessionUsageSyncMsgs [lsPub] "node1" [rPub] = [] := by
  refine ⟨rfl, by decide, by decide, by decide⟩

/-- C6 as amended: a record examined by one publisher tick contributes an
update-session message exactly when the ledger reports a session for its
id whose recorded upload bytes differ from the record rx_bytes (only that
counter pair is compared); and, the record ids being pairwise distinct,
once the ledger reflects a confirmed broadcast of the batch, a second tick
with an unchanged store produces zero messages. -/
theorem usage_sync_publish_iff_and_second_run_empty
    (L : List LedgerSession) (nodeAddr : String) (store : List Record)
    (hnd : (store.map (fun r => r.id)).Nodup) :
    (∀ r ∈ store.filter (fun x => x.nodeAddr == nodeAddr),
      (sessionUsageSyncShouldPublish L r = true ↔
        ∃ s, ledgerGetSession L r.id = some s ∧ s.uploadBytes ≠ r.rxBytes)) ∧
    sessionUsageSyncMsgs
      (ledgerApplyMsgs L (sessionUsageSyncMsgs L nodeAddr store))
      nodeAddr store = [] := by
  have hsubI : (store.filter (fun x => x.nodeAddr == nodeAddr)).Sublist store :=
    List.filter_sublist _
  have hitnd : ((store.filter (fun x => x.nodeAddr == nodeAddr)).map
      (fun x => x.id)).Nodup :=
    (hsubI.map (fun x => x.id)).nodup hnd
  constructor
  · intro r _
    unfold sessionUsageSyncShouldPublish
    cases h : ledgerGetSession L r.id <;> simp [h]
  · have hmain : ∀ r ∈ store.filter (fun x => x.nodeAddr == nodeAddr),
        sessionUsageSyncShouldPublish
          (ledgerApplyMsgs L (sessionUsageSyncMsgs L nodeAddr store)) r = false := by
      intro r hr
      unfold sessionUsageSyncShouldPublish
      rw [aux_lookup_applyMsgs]
      cases hlk : ledgerGetSession L r.id with
      | none => simp
      | some s =>
          simp only [Option.map_some']
          have hsid : s.id = r.id := aux_lookup_id hlk
          by_cases hup : s.uploadBytes = r.rxBytes
          · have hnm : ∀ m ∈ sessionUsageSyncMsgs L nodeAddr store,
                ¬ s.id = m.id := by
              intro m hm e
              obtain ⟨x, hx, hxm⟩ := List.mem_map.mp hm
              have hxitems := List.mem_filter.mp hx
              have hxid : x.id = r.id := by
                rw [← hxm] at e
                exact (hsid ▸ e).symm
              have hxr : x = r :=
                List.inj_on_of_nodup_map hitnd hxitems.1 hr hxid
              rw [hxr] at hxitems
              have : sessionUsageSyncShouldPublish L r = true := hxitems.2
              unfold sessionUsageSyncShouldPublish at this
              rw [hlk] at this
              simp [hup] at this
            rw [aux_msgFold_skip _ _ hnm]
            simp [hup]
          · have hrp : sessionUsageSyncShouldPublish L r = true := by
              unfold sessionUsageSyncShouldPublish
              rw [hlk]
              simp [hup]
            have hrpubs : r ∈ (store.filter (fun x => x.nodeAddr == nodeAddr)).filter
                (sessionUsageSyncShouldPublish L) :=
              List.mem_filter.mpr ⟨hr, hrp⟩
            have hsubP : ((store.filter (fun x => x.nodeAddr == nodeAddr)).filter
                (sessionUsageSyncShouldPublish L)).Sublist
                  (store.filter (fun x => x.nodeAddr == nodeAddr)) :=
              List.filter_sublist _
            have hpubnd : (((store.filter (fun x => x.nodeAddr == nodeAddr)).filter
                (sessionUsageSyncShouldPublish L)).map (fun x => x.id)).Nodup :=
              (hsubP.map (fun x => x.id)).nodup hitnd
            obtain ⟨a, b, hab⟩ := List.append_of_mem hrpubs
            have hnd3 : ((a ++ r :: b).map (fun x => x.id)).Nodup := by
              rw [← hab]; exact hpubnd
            rw [List.map_append, List.map_cons] at hnd3
            have hnd4 := List.nodup_append.mp hnd3
            have hpre : ∀ x ∈ a, x.id ≠ r.id := by
              intro x hx e
              exact hnd4.2.2 (e ▸ List.mem_map_of_mem (fun z => z.id) hx)
                (List.mem_cons_self _ _)
            have hpost : ∀ x ∈ b, x.id ≠ r.id := by
              intro x hx e
              exact (List.nodup_cons.mp hnd4.2.1).1
                (e ▸ List.mem_map_of_mem (fun z => z.id) hx)
            have hmsgs : sessionUsageSyncMsgs L nodeAddr store =
                a.map msgUpdateSession ++
                  msgUpdateSession r :: b.map msgUpdateSession := by
              unfold sessionUsageSyncMsgs
              rw [hab]
              simp
            rw [hmsgs, aux_msgFold_update]
            · simp [msgUpdateSession]
            · intro x hx e
              obtain ⟨y, hy, hym⟩ := List.mem_map.mp hx
              rw [← hym] at e
              exact hpre y hy ((hsid ▸ e).symm)
            · show (msgUpdateSession r).id = s.id
              rw [hsid]
              rfl
            · intro x hx e
              obtain ⟨y, hy, hym⟩ := List.mem_map.mp hx
              rw [← hym] at e
              exact hpost y hy ((hsid ▸ e).symm)
    have hnilf : (store.filter (fun r => r.nodeAddr == nodeAddr)).filter
        (sessionUsageSyncShouldPublish
          (ledgerApplyMsgs L (sessionUsageSyncMsgs L nodeAddr store))) = [] :=
      List.filter_eq_nil_iff.mpr (fun r hr => by simp [hmain r hr])
    show ((store.filter (fun r => r.nodeAddr == nodeAddr)).filter
        (sessionUsageSyncShouldPublish
          (ledgerApplyMsgs L (sessionUsageSyncMsgs L nodeAddr store)))).map
        msgUpdateSession = []
    rw [hnilf]
    rfl

/-- Witness for the amended C6: the store holding the concrete record and
the ledger holding its session with differing upload bytes: the record is
published exactly by the iff, and the second run right after confirmation
produces zero messages. -/
theorem usage_sync_publish_iff_and_second_run_empty_witness :
    (sessionUsageSyncShouldPublish [lsPubStale] rPub = true ↔
      ∃ s, ledgerGetSession [lsPubStale] rPub.id = some s ∧
        s.uploadBytes ≠ rPub.rxBytes) ∧
    sessionUsageSyncMsgs
      (ledgerApplyMsgs [lsPubStale] (sessionUsageSyncMsgs [lsPubStale] "node1" [rPub]))
      "node1" [rPub] = [] :=
  ⟨(usage_sync_publish_iff_and_second_run_empty [lsPubStale] "node1" [rPub]
      (by decide)).1 rPub (by decide),
   (usage_sync_publish_iff_and_second_run_empty [lsPubStale] "node1" [rPub]
      (by decide)).2⟩

end ClaimC6

end DvpnX
